import Mathlib

/-
Verification of the strela-rs frame pipeline: the producer loop
(`render.rs::run_iteration`), its render context, the crossbeam frame
channel, the single-value camera channel, and the presentation callback
(`main.rs::RenderViewCallback::prepare`), shallowly embedded in Lean.
-/

namespace Strela

/-- Scalar standing for Rust `f32`. The embedded code performs no
floating-point arithmetic on color components: every component is either a
literal (`0.0`, `1.0`, `-1.0`) or copied verbatim from a settings field, so
exact rationals preserve the semantics of every modelled operation. -/
abbrev F32 := ℚ

/-- nalgebra_glm `Mat4`, a 4x4 `f32` matrix. -/
abbrev Mat4 := Matrix (Fin 4) (Fin 4) F32

/-- nalgebra `Mat4::identity()`. -/
def Mat4.identity : Mat4 := 1

/-- nalgebra `Mat4::new_translation(&Vec3::new(x, y, z))`: the identity
matrix with the translation vector in the last column. -/
def Mat4.new_translation (x y z : F32) : Mat4 :=
  Matrix.of fun i j =>
    if j = 3 then
      if i = 0 then x else if i = 1 then y else if i = 2 then z else 1
    else if i = j then 1 else 0

/-- `render.rs::Color`, a `#[repr(C)]` wrapper around `[f32; 4]` in
r, g, b, a order. -/
structure Color where
  r : F32
  g : F32
  b : F32
  a : F32
deriving DecidableEq, Repr

/-- `Color::new(r, g, b, a)`. -/
def Color.new (r g b a : F32) : Color := ⟨r, g, b, a⟩

/-- `Color::default()` (derived `Default` zero-fills the array). -/
def Color.default : Color := ⟨0, 0, 0, 0⟩

/-- Modelled from the spec: the `Settings` struct (`crate::Settings`) is
referenced by `render.rs` but its declaration is not under `src/`. Per the
spec it is the shared RenderSettings configuration; `run_iteration` reads
its background color as `settings.color[0]`, `settings.color[1]`,
`settings.color[2]`, so it carries a 3-component color array. -/
structure Settings where
  color : Fin 3 → F32

/-- `Arc<Mutex<Settings>>` as seen by one locking thread: the guarded value
together with whether the mutex is poisoned. `lock().unwrap()` panics
exactly when the mutex is poisoned. -/
structure MutexSettings where
  value : Settings
  poisoned : Bool

/-- The error value of crossbeam `Sender::try_send`. -/
inductive TrySendError
  | full
  | disconnected
deriving DecidableEq, Repr

/-- State of a crossbeam channel of frames (`Vec<Color>` payloads): the
FIFO queue of in-flight frames, the capacity (`none` for
`crossbeam_channel::unbounded()`, `some c` for `bounded(c)`), and whether
the receiver side is still connected. -/
structure FrameChannel where
  queue : List (List Color)
  capacity : Option Nat
  connected : Bool
deriving DecidableEq, Repr

/-- A bounded crossbeam channel is full when its queue has reached its
capacity; an unbounded channel is never full. -/
def FrameChannel.isFull (ch : FrameChannel) : Bool :=
  match ch.capacity with
  | some c => decide (c ≤ ch.queue.length)
  | none => false

/-- crossbeam `Sender::try_send`: fails with `Disconnected` if the receiver
is gone, fails with `Full` if the channel is at capacity (leaving the queue
untouched; the rejected frame is handed back to the caller and dropped
there), and otherwise enqueues the frame at the tail and succeeds. It never
blocks. -/
def FrameChannel.trySend (ch : FrameChannel) (f : List Color) :
    Except TrySendError Unit × FrameChannel :=
  if ch.connected = false then (Except.error TrySendError.disconnected, ch)
  else if ch.isFull then (Except.error TrySendError.full, ch)
  else (Except.ok (), { ch with queue := ch.queue ++ [f] })

/-- crossbeam `Receiver::try_recv`: dequeues the head frame if one is
queued, otherwise reports no frame; it never blocks. -/
def FrameChannel.tryRecv (ch : FrameChannel) : Option (List Color) × FrameChannel :=
  match ch.queue with
  | [] => (none, ch)
  | f :: rest => (some f, { ch with queue := rest })

/-- The frame channel as constructed in `main`:
`crossbeam_channel::unbounded()` — empty queue, no capacity bound,
receiver connected. -/
def mainFrameChannel : FrameChannel :=
  { queue := [], capacity := none, connected := true }

/-- The receiver half of a `single_value_channel`: it always holds exactly
one value (construction requires an initial value). -/
structure CameraChannel where
  value : Mat4

/-- `single_value_channel::channel_starting_with(initial)`. -/
def channel_starting_with (m : Mat4) : CameraChannel := ⟨m⟩

/-- `Receiver::latest()`: returns the most recently written value (the
initial value if none was written); the stored value is unchanged. -/
def CameraChannel.latest (ch : CameraChannel) : Mat4 × CameraChannel :=
  (ch.value, ch)

/-- `Updater::update(value)`: overwrites the single slot. -/
def CameraChannel.update (_ch : CameraChannel) (m : Mat4) : CameraChannel :=
  ⟨m⟩

/-- The camera channel as constructed in `main`:
`single_value_channel::channel_starting_with(Mat4::identity())`. -/
def mainCameraChannel : CameraChannel := channel_starting_with Mat4.identity

/-- The results of `n` consecutive `latest()` calls with no intervening
`update()`, in call order, each call acting on the state left by the
previous one. -/
def latestCalls : Nat → CameraChannel → List Mat4
  | 0, _ => []
  | n + 1, ch => (ch.latest).1 :: latestCalls n (ch.latest).2

/-- `render.rs::PathTracerRenderContext`: the guarded reusable pixel
buffer, output dimensions, view transform, frame-channel sender and
camera-channel receiver (both carried as channel states here), and the
shared settings handle. -/
structure PathTracerRenderContext where
  image_data : List Color
  result_width : Nat
  result_height : Nat
  view : Mat4
  tx : FrameChannel
  input_rx : CameraChannel
  settings : MutexSettings

/-- `PathTracerRenderContext::new(width, height, tx, input_rx, settings)`:
the buffer is `vec![Color::default(); width * height]` and the view is the
translation by (0, 0, -1). -/
def PathTracerRenderContext.new (width height : Nat) (tx : FrameChannel)
    (input_rx : CameraChannel) (settings : MutexSettings) :
    PathTracerRenderContext :=
  { result_height := height
    result_width := width
    view := Mat4.new_translation 0 0 (-1)
    image_data := List.replicate (width * height) Color.default
    tx := tx
    input_rx := input_rx
    settings := settings }

/-- The background color `run_iteration` builds from a settings snapshot:
`Color::new(settings.color[0], settings.color[1], settings.color[2], 1.0)`
— the alpha component is forced to 1.0. -/
def bgColor (s : Settings) : Color :=
  Color.new (s.color 0) (s.color 1) (s.color 2) 1

/-- The pixel loop of `run_iteration`:
for `i in 0..height`, for `j in 0..width`, write at index
`i * width + j` the color white `(1,1,1,1)`, replaced by the background
color when `i == j`. -/
def renderLoop (bg : Color) (w h : Nat) (buf : List Color) : List Color :=
  (List.range h).foldl
    (fun acc i =>
      (List.range w).foldl
        (fun acc2 j =>
          acc2.set (i * w + j) (if i = j then bg else Color.new 1 1 1 1))
        acc)
    buf

/-- A panic aborting `run_iteration`. -/
inductive Panic
  | poisonedLock
deriving DecidableEq, Repr

/-- What one successful `run_iteration` call produces: the updated context,
the result of the `try_send` call, and the frame that was handed to
`try_send`. -/
structure IterationResult where
  ctx : PathTracerRenderContext
  sent : Except TrySendError Unit
  frame : List Color

/-- The body of `render.rs::run_iteration` past the `lock().unwrap()`:
read `latest()` from the camera channel (the value is only logged), take
the settings snapshot under the lock, build `bg_color`, clone the guarded
pixel buffer, run the pixel loop on the clone, and `try_send` the clone.
The context's own `image_data` is never written; only the channel states
move. -/
def iterationBody (ctx : PathTracerRenderContext) : IterationResult :=
  let camera := ctx.input_rx.latest
  let settings := ctx.settings.value
  let bg_color := bgColor settings
  let image_data :=
    renderLoop bg_color ctx.result_width ctx.result_height ctx.image_data
  let sendResult := ctx.tx.trySend image_data
  { ctx := { ctx with tx := sendResult.2, input_rx := camera.2 }
    sent := sendResult.1
    frame := image_data }

/-- `render.rs::run_iteration`: `pt_ctx.settings.lock().unwrap()` panics
when the settings mutex is poisoned, before any frame is computed or
published; otherwise the iteration runs to completion. -/
def run_iteration (ctx : PathTracerRenderContext) :
    Except Panic IterationResult :=
  if ctx.settings.poisoned then Except.error Panic.poisonedLock
  else Except.ok (iterationBody ctx)

/-- The render thread spawned by `main`: `loop { run_iteration(...) }`,
bounded here by fuel. A panic inside `run_iteration` unwinds and
terminates the thread, so iteration stops at the first panic and the
context (hence the channel) is left as it was. -/
def threadLoop : Nat → PathTracerRenderContext →
    PathTracerRenderContext × Option Panic
  | 0, ctx => (ctx, none)
  | n + 1, ctx =>
    match run_iteration ctx with
    | Except.error p => (ctx, some p)
    | Except.ok r => threadLoop n r.ctx

/-- Observable actions of one `run_iteration` call, used to talk about
where the settings lock is held. -/
inductive Event
  | readCameraLatest
  | lockSettings
  | readSettingsColor
  | lockImageData
  | cloneImageData
  | unlockImageData
  | computePixel (i j : Nat)
  | trySendFrame
  | unlockSettings
deriving DecidableEq, Repr

/-- The pixel-computation events of the nested loop, row-major. -/
def computeEvents (w h : Nat) : List Event :=
  ((List.range h).map
    (fun i => (List.range w).map (fun j => Event.computePixel i j))).flatten

/-- The action sequence of one (non-panicking) `run_iteration` call in
source order. Rust drop semantics place the unlocks: the `image_data`
guard is a temporary inside the `clone()` expression and is released at
the end of that statement, while the `settings` guard is bound to a
variable and is only released when the function body ends — after the
pixel loop and after `try_send`. -/
def run_iteration_trace (ctx : PathTracerRenderContext) : List Event :=
  [Event.readCameraLatest, Event.lockSettings, Event.readSettingsColor,
    Event.lockImageData, Event.cloneImageData, Event.unlockImageData]
    ++ computeEvents ctx.result_width ctx.result_height
    ++ [Event.trySendFrame, Event.unlockSettings]

/-- The settings lock is held when the event at index `k` runs: strictly
more acquisitions than releases precede index `k`. -/
def settingsLockHeldAt (tr : List Event) (k : Nat) : Bool :=
  (tr.take k).count Event.unlockSettings < (tr.take k).count Event.lockSettings

/-- The discipline claimed by the spec: the settings lock is never held
while a pixel is computed or while the frame is published. -/
def lockReleasedBeforeComputeAndPublish (tr : List Event) : Bool :=
  (List.range tr.length).all fun k =>
    match tr[k]? with
    | some (Event.computePixel _ _) => !settingsLockHeldAt tr k
    | some Event.trySendFrame => !settingsLockHeldAt tr k
    | _ => true

/-- The events of an iteration strictly between taking the settings lock
and releasing it. -/
def midEvents (w h : Nat) : List Event :=
  [Event.readSettingsColor, Event.lockImageData, Event.cloneImageData,
    Event.unlockImageData]
    ++ computeEvents w h ++ [Event.trySendFrame]

/-- `main.rs::RenderViewCallback::prepare`, reduced to its channel-facing
contract: one non-blocking `try_recv`; on a frame, upload it (it becomes
the shown content); on no frame, no upload and the shown content is
untouched. -/
structure PrepareResult where
  receiver : FrameChannel
  shown : Option (List Color)
  uploaded : Bool
deriving Repr

/-- `if let Ok(image) = self.receiver.try_recv() { write_buffer;
copy_buffer_to_texture }` — the upload happens exactly when the poll
returned a frame. -/
def RenderViewCallback.prepare (receiver : FrameChannel)
    (shown : Option (List Color)) : PrepareResult :=
  let polled := receiver.tryRecv
  match polled.1 with
  | some image => { receiver := polled.2, shown := some image, uploaded := true }
  | none => { receiver := polled.2, shown := shown, uploaded := false }

/-- Repeated publish attempts with no intervening polls: the per-attempt
results in order, and the final channel state. -/
def publishAll (ch : FrameChannel) (fs : List (List Color)) :
    List (Except TrySendError Unit) × FrameChannel :=
  match fs with
  | [] => ([], ch)
  | f :: rest =>
    let p := ch.trySend f
    let r := publishAll p.2 rest
    (p.1 :: r.1, r.2)

/-! ### Helper lemmas -/

/-- The inner pixel loop generalized to an arbitrary list of column
indices. -/
def rowAux (bg : Color) (w i : Nat) (js : List Nat) (acc : List Color) :
    List Color :=
  js.foldl
    (fun acc2 j => acc2.set (i * w + j) (if i = j then bg else Color.new 1 1 1 1))
    acc

/-- The outer pixel loop generalized to an arbitrary list of row
indices. -/
def loopAux (bg : Color) (w : Nat) (is : List Nat) (buf : List Color) :
    List Color :=
  is.foldl (fun acc i => rowAux bg w i (List.range w) acc) buf

theorem renderLoop_eq_loopAux (bg : Color) (w h : Nat) (buf : List Color) :
    renderLoop bg w h buf = loopAux bg w (List.range h) buf := rfl

theorem rowAux_length (bg : Color) (w i : Nat) (js : List Nat)
    (acc : List Color) : (rowAux bg w i js acc).length = acc.length := by
  induction js generalizing acc with
  | nil => rfl
  | cons a t ih =>
    show (rowAux bg w i t _).length = _
    rw [ih, List.length_set]

theorem loopAux_length (bg : Color) (w : Nat) (is : List Nat)
    (buf : List Color) : (loopAux bg w is buf).length = buf.length := by
  induction is generalizing buf with
  | nil => rfl
  | cons a t ih =>
    show (loopAux bg w t _).length = _
    rw [ih, rowAux_length]

theorem renderLoop_length (bg : Color) (w h : Nat) (buf : List Color) :
    (renderLoop bg w h buf).length = buf.length := by
  rw [renderLoop_eq_loopAux, loopAux_length]

theorem rowAux_getElem?_ne (bg : Color) (w i : Nat) (js : List Nat)
    (acc : List Color) (k : Nat) (h : ∀ j ∈ js, i * w + j ≠ k) :
    (rowAux bg w i js acc)[k]? = acc[k]? := by
  induction js generalizing acc with
  | nil => rfl
  | cons a t ih =>
    show (rowAux bg w i t _)[k]? = _
    rw [ih _ fun j hj => h j (List.mem_cons_of_mem a hj)]
    rw [List.getElem?_set, if_neg (h a (List.mem_cons_self a t))]

theorem rowAux_getElem?_mem (bg : Color) (w i : Nat) (js : List Nat)
    (acc : List Color) (j0 : Nat) (hmem : j0 ∈ js)
    (hlen : i * w + j0 < acc.length) :
    (rowAux bg w i js acc)[i * w + j0]? =
      some (if i = j0 then bg else Color.new 1 1 1 1) := by
  induction js generalizing acc with
  | nil => cases hmem
  | cons a t ih =>
    show (rowAux bg w i t _)[i * w + j0]? = _
    by_cases hj : j0 ∈ t
    · exact ih _ hj (by rw [List.length_set]; exact hlen)
    · have ha : j0 = a := by
        rcases List.mem_cons.mp hmem with h1 | h1
        · exact h1
        · exact absurd h1 hj
      subst ha
      rw [rowAux_getElem?_ne bg w i t _ _
        (fun j hjt hwj => hj (by
          have : j = j0 := Nat.add_left_cancel hwj
          exact this ▸ hjt))]
      rw [List.getElem?_set, if_pos rfl, if_pos hlen]

/-- Distinct rows write at distinct buffer indices (given in-range column
indices). -/
theorem idx_ne {i i0 j j0 w : Nat} (hii : i ≠ i0) (hj : j < w)
    (hj0 : j0 < w) : i * w + j ≠ i0 * w + j0 := by
  intro heq
  rcases Nat.lt_or_ge i i0 with h1 | h1
  · have h4 : i * w + w = (i + 1) * w := by ring
    have h5 : (i + 1) * w ≤ i0 * w := Nat.mul_le_mul_right w h1
    omega
  · have h2 : i0 < i := Nat.lt_of_le_of_ne h1 fun h => hii h.symm
    have h4 : i0 * w + w = (i0 + 1) * w := by ring
    have h5 : (i0 + 1) * w ≤ i * w := Nat.mul_le_mul_right w h2
    omega

theorem loopAux_getElem?_ne (bg : Color) (w : Nat) (is : List Nat)
    (buf : List Color) (i0 j0 : Nat) (hj0 : j0 < w)
    (h : ∀ i ∈ is, i ≠ i0) :
    (loopAux bg w is buf)[i0 * w + j0]? = buf[i0 * w + j0]? := by
  induction is generalizing buf with
  | nil => rfl
  | cons a t ih =>
    show (loopAux bg w t _)[i0 * w + j0]? = _
    rw [ih _ fun i hi => h i (List.mem_cons_of_mem a hi)]
    exact rowAux_getElem?_ne bg w a _ _ _ fun j hj =>
      idx_ne (h a (List.mem_cons_self a t)) (List.mem_range.mp hj) hj0

theorem loopAux_getElem?_mem (bg : Color) (w : Nat) (is : List Nat)
    (buf : List Color) (i0 j0 : Nat) (hi0 : i0 ∈ is) (hj0 : j0 < w)
    (hlen : i0 * w + j0 < buf.length) :
    (loopAux bg w is buf)[i0 * w + j0]? =
      some (if i0 = j0 then bg else Color.new 1 1 1 1) := by
  induction is generalizing buf with
  | nil => cases hi0
  | cons a t ih =>
    show (loopAux bg w t _)[i0 * w + j0]? = _
    by_cases hi : i0 ∈ t
    · exact ih _ hi (by rw [rowAux_length]; exact hlen)
    · have ha : i0 = a := by
        rcases List.mem_cons.mp hi0 with h1 | h1
        · exact h1
        · exact absurd h1 hi
      subst ha
      rw [loopAux_getElem?_ne bg w t _ _ _ hj0
        fun i hit he => hi (by rw [he] at hit; exact hit)]
      exact rowAux_getElem?_mem bg w i0 _ _ j0 (List.mem_range.mpr hj0) hlen

/-- Pixel `(i, j)` of the frame computed by the pixel loop: the background
color on the diagonal, opaque white off it. -/
theorem renderLoop_getElem? (bg : Color) (w h : Nat) (buf : List Color)
    (i j : Nat) (hi : i < h) (hj : j < w) (hlen : buf.length = w * h) :
    (renderLoop bg w h buf)[i * w + j]? =
      some (if i = j then bg else Color.new 1 1 1 1) := by
  rw [renderLoop_eq_loopAux]
  apply loopAux_getElem?_mem bg w _ buf i j (List.mem_range.mpr hi) hj
  rw [hlen]
  calc i * w + j < i * w + w := Nat.add_lt_add_left hj _
    _ = (i + 1) * w := by ring
    _ ≤ h * w := Nat.mul_le_mul_right w hi
    _ = w * h := Nat.mul_comm h w

/-- The pixel loop overwrites every position of a frame-sized buffer, so
its output does not depend on the buffer contents. -/
theorem renderLoop_congr (bg : Color) (w h : Nat) (buf₁ buf₂ : List Color)
    (h₁ : buf₁.length = w * h) (h₂ : buf₂.length = w * h) :
    renderLoop bg w h buf₁ = renderLoop bg w h buf₂ := by
  apply List.ext_getElem?
  intro k
  by_cases hk : k < w * h
  · have hw : 0 < w := by
      rcases Nat.eq_zero_or_pos w with h0 | h0
      · subst h0; simp at hk
      · exact h0
    have hj : k % w < w := Nat.mod_lt _ hw
    have hi : k / w < h := by
      rw [Nat.div_lt_iff_lt_mul hw]
      exact Nat.lt_of_lt_of_le hk (Nat.le_of_eq (Nat.mul_comm w h))
    have hk' : k / w * w + k % w = k := by
      have h6 := Nat.div_add_mod k w
      have h7 : w * (k / w) = k / w * w := Nat.mul_comm _ _
      omega
    rw [← hk', renderLoop_getElem? bg w h buf₁ _ _ hi hj h₁,
      renderLoop_getElem? bg w h buf₂ _ _ hi hj h₂]
  · rw [List.getElem?_eq_none, List.getElem?_eq_none]
    · rw [renderLoop_length, h₂]; omega
    · rw [renderLoop_length, h₁]; omega

theorem mem_computeEvents {e : Event} {w h : Nat} :
    e ∈ computeEvents w h ↔
      ∃ i j, i < h ∧ j < w ∧ e = Event.computePixel i j := by
  simp only [computeEvents, List.mem_flatten, List.mem_map, List.mem_range]
  constructor
  · rintro ⟨l, ⟨i, hi, rfl⟩, hel⟩
    rcases List.mem_map.mp hel with ⟨j, hj, rfl⟩
    exact ⟨i, j, hi, List.mem_range.mp hj, rfl⟩
  · rintro ⟨i, j, hi, hj, rfl⟩
    exact ⟨(List.range w).map (fun j => Event.computePixel i j), ⟨i, hi, rfl⟩,
      List.mem_map.mpr ⟨j, List.mem_range.mpr hj, rfl⟩⟩

theorem computeEvents_count_trySendFrame (w h : Nat) :
    (computeEvents w h).count Event.trySendFrame = 0 := by
  rw [List.count_eq_zero]
  intro hmem
  rcases mem_computeEvents.mp hmem with ⟨i, j, _, _, he⟩
  cases he

theorem run_iteration_ok (ctx : PathTracerRenderContext)
    (hp : ctx.settings.poisoned = false) :
    run_iteration ctx = Except.ok (iterationBody ctx) := by
  unfold run_iteration
  rw [hp]
  rfl

theorem iterationBody_frame (ctx : PathTracerRenderContext) :
    (iterationBody ctx).frame =
      renderLoop (bgColor ctx.settings.value) ctx.result_width
        ctx.result_height ctx.image_data := rfl

theorem iterationBody_image_data (ctx : PathTracerRenderContext) :
    (iterationBody ctx).ctx.image_data = ctx.image_data := rfl

/-! ### Concrete values used by witnesses and counterexamples -/

/-- An empty unbounded connected channel (the state `main` creates). -/
def emptyChan : FrameChannel := { queue := [], capacity := none, connected := true }

/-- A bounded channel of capacity 1 already holding one frame: full. -/
def fullChan1 : FrameChannel :=
  { queue := [[]], capacity := some 1, connected := true }

/-- A concrete settings value: background color red (1, 0, 0). -/
def settingsRed : Settings := ⟨fun i => if i = 0 then 1 else 0⟩

/-- A healthy (unpoisoned) settings mutex holding red. -/
def mutexRed : MutexSettings := ⟨settingsRed, false⟩

/-- A poisoned settings mutex holding red. -/
def mutexPoisoned : MutexSettings := ⟨settingsRed, true⟩

/-- A camera channel currently holding the identity transform. -/
def camId : CameraChannel := ⟨Mat4.identity⟩

/-- A 2x2 context over an empty unbounded channel with red settings. -/
def ctx2 : PathTracerRenderContext :=
  PathTracerRenderContext.new 2 2 emptyChan camId mutexRed

/-- A 1x1 context, used for trace evaluation. -/
def ctx1 : PathTracerRenderContext :=
  PathTracerRenderContext.new 1 1 emptyChan camId mutexRed

/-- A 2x2 context with a poisoned settings mutex. -/
def ctx2p : PathTracerRenderContext :=
  PathTracerRenderContext.new 2 2 emptyChan camId mutexPoisoned

/-- An unbounded channel currently holding one frame. -/
def oneFrameChan : FrameChannel :=
  { queue := [[Color.default]], capacity := none, connected := true }

/-- A 2x2 context holding the same red settings snapshot as `ctx2` but
differing in camera, view, channel state and buffer contents. -/
def ctx2b : PathTracerRenderContext :=
  { image_data := List.replicate 4 (Color.new 5 6 7 8)
    result_width := 2
    result_height := 2
    view := Mat4.identity
    tx := fullChan1
    input_rx := ⟨Mat4.new_translation 1 2 3⟩
    settings := ⟨settingsRed, false⟩ }

theorem latestCalls_replicate (n : Nat) (ch : CameraChannel) :
    latestCalls n ch = List.replicate n ch.value := by
  induction n with
  | zero => rfl
  | succ k ih => simp [latestCalls, CameraChannel.latest, List.replicate_succ, ih]

theorem trySend_room (ch : FrameChannel) (f : List Color)
    (hc : ch.connected = true) (hf : ch.isFull = false) :
    ch.trySend f = (Except.ok (), { ch with queue := ch.queue ++ [f] }) := by
  unfold FrameChannel.trySend
  rw [hc, hf]
  rfl

theorem trySend_full (ch : FrameChannel) (f : List Color)
    (hc : ch.connected = true) (hf : ch.isFull = true) :
    ch.trySend f = (Except.error TrySendError.full, ch) := by
  unfold FrameChannel.trySend
  rw [hc, hf]
  rfl

theorem publishAll_unbounded (n : Nat) (q : List (List Color)) (f : List Color) :
    publishAll { queue := q, capacity := none, connected := true }
        (List.replicate n f) =
      (List.replicate n (Except.ok ()),
        { queue := q ++ List.replicate n f, capacity := none, connected := true }) := by
  induction n generalizing q with
  | zero => simp [publishAll]
  | succ k ih =>
    rw [List.replicate_succ]
    show publishAll _ (f :: List.replicate k f) = _
    have hsend : FrameChannel.trySend
        { queue := q, capacity := none, connected := true } f =
        (Except.ok (),
          { queue := q ++ [f], capacity := none, connected := true }) := by
      apply trySend_room <;> rfl
    simp only [publishAll, hsend, ih (q ++ [f])]
    simp [List.replicate_succ, List.append_assoc]

/-- If the event at index `k` sits inside the middle section of an
iteration trace, then `k` lies strictly between the lock acquisition
(index 1) and the lock release (the final index). -/
theorem middle_bounds (mid : List Event) (k : Nat) (e : Event)
    (he : ([Event.readCameraLatest, Event.lockSettings]
      ++ (mid ++ [Event.unlockSettings]))[k]? = some e)
    (h0 : e ≠ Event.readCameraLatest) (h1 : e ≠ Event.lockSettings)
    (h2 : e ≠ Event.unlockSettings) :
    2 ≤ k ∧ k ≤ 1 + mid.length := by
  match k with
  | 0 =>
    rw [show ([Event.readCameraLatest, Event.lockSettings]
      ++ (mid ++ [Event.unlockSettings])) = Event.readCameraLatest ::
        (Event.lockSettings :: (mid ++ [Event.unlockSettings])) from rfl,
      List.getElem?_cons_zero] at he
    exact absurd (Option.some.inj he).symm h0
  | 1 =>
    rw [show ([Event.readCameraLatest, Event.lockSettings]
      ++ (mid ++ [Event.unlockSettings])) = Event.readCameraLatest ::
        (Event.lockSettings :: (mid ++ [Event.unlockSettings])) from rfl,
      List.getElem?_cons_succ, List.getElem?_cons_zero] at he
    exact absurd (Option.some.inj he).symm h1
  | m + 2 =>
    refine ⟨by omega, ?_⟩
    rw [show ([Event.readCameraLatest, Event.lockSettings]
      ++ (mid ++ [Event.unlockSettings])) = Event.readCameraLatest ::
        (Event.lockSettings :: (mid ++ [Event.unlockSettings])) from rfl,
      List.getElem?_cons_succ, List.getElem?_cons_succ] at he
    by_contra hgt
    have hm : mid.length ≤ m := by omega
    rw [List.getElem?_append_right hm] at he
    rcases Nat.eq_zero_or_pos (m - mid.length) with h3 | h3
    · rw [h3, List.getElem?_cons_zero] at he
      exact absurd (Option.some.inj he).symm h2
    · have : ([Event.unlockSettings] : List Event)[m - mid.length]? = none := by
        apply List.getElem?_eq_none
        simp
        omega
      rw [this] at he
      cases he

/-- Any index strictly between the lock acquisition and the final release
of an iteration trace sees the settings lock held. -/
theorem heldAt_of_middle (mid : List Event) (k : Nat)
    (hunlock : Event.unlockSettings ∉ mid)
    (hk2 : 2 ≤ k) (hkm : k ≤ 1 + mid.length) :
    settingsLockHeldAt ([Event.readCameraLatest, Event.lockSettings]
      ++ (mid ++ [Event.unlockSettings])) k = true := by
  unfold settingsLockHeldAt
  obtain ⟨m, rfl⟩ : ∃ m, k = m + 2 := ⟨k - 2, by omega⟩
  have htake : ([Event.readCameraLatest, Event.lockSettings]
      ++ (mid ++ [Event.unlockSettings])).take (m + 2) =
      Event.readCameraLatest :: (Event.lockSettings ::
        (mid ++ [Event.unlockSettings]).take m) := by
    rfl
  rw [htake]
  have hm : m ≤ mid.length := by omega
  rw [List.take_append_of_le_length hm]
  have hcnt : (mid.take m).count Event.unlockSettings = 0 :=
    List.count_eq_zero.mpr fun hmem => hunlock (List.take_subset m mid hmem)
  simp only [List.count_cons, List.count_nil]
  simp [hcnt]

theorem mem_midEvents {e : Event} {w h : Nat} :
    e ∈ midEvents w h ↔
      e = Event.readSettingsColor ∨ e = Event.lockImageData ∨
      e = Event.cloneImageData ∨ e = Event.unlockImageData ∨
      e ∈ computeEvents w h ∨ e = Event.trySendFrame := by
  simp [midEvents, List.mem_append, List.mem_cons, or_assoc]

theorem run_iteration_trace_decomp (ctx : PathTracerRenderContext) :
    run_iteration_trace ctx =
      [Event.readCameraLatest, Event.lockSettings]
        ++ (midEvents ctx.result_width ctx.result_height
          ++ [Event.unlockSettings]) := by
  simp [run_iteration_trace, midEvents]

theorem unlockSettings_not_mem_midEvents (w h : Nat) :
    Event.unlockSettings ∉ midEvents w h := by
  intro hmem
  rcases mem_midEvents.mp hmem with h1 | h1 | h1 | h1 | h1 | h1 <;>
    first
      | cases h1
      | exact absurd (mem_computeEvents.mp h1) (by rintro ⟨i, j, _, _, he⟩; cases he)

/-! ### Claims -/

/-- C1: the publish step of `run_iteration` is a single non-blocking
try-send per iteration; with room the frame is enqueued at the tail and
the call reports success, when full the call reports backpressure, the
channel is left unchanged and the frame is dropped (in particular it is
not stored back into the context); the iteration completes either way, so
the producer proceeds to its next iteration without retrying or blocking. -/
theorem C1_publish_is_nonblocking_try_send (ctx : PathTracerRenderContext)
    (hp : ctx.settings.poisoned = false) :
    run_iteration ctx = Except.ok (iterationBody ctx) ∧
    (run_iteration_trace ctx).count Event.trySendFrame = 1 ∧
    (iterationBody ctx).sent = (ctx.tx.trySend (iterationBody ctx).frame).1 ∧
    (iterationBody ctx).ctx.tx = (ctx.tx.trySend (iterationBody ctx).frame).2 ∧
    (iterationBody ctx).ctx.image_data = ctx.image_data ∧
    (∀ (ch : FrameChannel) (f : List Color), ch.connected = true → ch.isFull = false →
      ch.trySend f = (Except.ok (), { ch with queue := ch.queue ++ [f] })) ∧
    (∀ (ch : FrameChannel) (f : List Color), ch.connected = true → ch.isFull = true →
      ch.trySend f = (Except.error TrySendError.full, ch)) := by
  refine ⟨run_iteration_ok ctx hp, ?_, rfl, rfl, rfl, trySend_room, trySend_full⟩
  simp [run_iteration_trace, List.count_append, computeEvents_count_trySendFrame,
    List.count_cons, List.count_nil]

/-- Witness for C1 at concrete inputs: a healthy 2x2 context completes its
iteration, a full bounded channel rejects with backpressure and is left
unchanged, an empty channel accepts and enqueues. -/
theorem C1_publish_is_nonblocking_try_send_witness :
    run_iteration ctx2 = Except.ok (iterationBody ctx2) ∧
    FrameChannel.trySend fullChan1 [] = (Except.error TrySendError.full, fullChan1) ∧
    FrameChannel.trySend emptyChan [[Color.default]].flatten =
      (Except.ok (), { emptyChan with queue := [[Color.default]] }) := by
  have h := C1_publish_is_nonblocking_try_send ctx2 rfl
  refine ⟨h.1, h.2.2.2.2.2.2 fullChan1 [] rfl rfl, ?_⟩
  have h2 := h.2.2.2.2.2.1 emptyChan [Color.default] rfl rfl
  simpa using h2

/-- C2 (code evaluated at the failing input): the frame channel `main`
actually constructs is `crossbeam_channel::unbounded()`, so for every `n`,
`n` publish attempts with no intervening polls all report success, the
channel ends up holding all `n` frames, and it is never full — no finite
capacity bounds its contents and no publish ever reports backpressure. -/
theorem C2_main_channel_is_unbounded (n : Nat) :
    (publishAll mainFrameChannel (List.replicate n [])).1 =
      List.replicate n (Except.ok ()) ∧
    (publishAll mainFrameChannel (List.replicate n [])).2.queue.length = n ∧
    (publishAll mainFrameChannel (List.replicate n [])).2.isFull = false := by
  have h := publishAll_unbounded n [] []
  rw [show mainFrameChannel =
    { queue := [], capacity := none, connected := true } from rfl, h]
  simp [FrameChannel.isFull]

/-- C3 counterexample: on a concrete 1x1 context, the iteration trace
violates the claimed discipline — the settings lock is held at a
pixel-computation event (and at the publish event), because the
`MutexGuard` bound to `settings` is only dropped at the end of
`run_iteration`. -/
theorem C3_counterexample :
    lockReleasedBeforeComputeAndPublish (run_iteration_trace ctx1) = false := by
  decide

/-- C3 amended: the RenderSettings lock is acquired right after the camera
read and is held for the remainder of the iteration — every pixel
computation and the publish happen strictly between the one acquisition
and the one release, and the release is the final event of the
iteration. -/
theorem C3_amended_lock_held_through_iteration (ctx : PathTracerRenderContext) :
    run_iteration_trace ctx =
      [Event.readCameraLatest, Event.lockSettings]
        ++ (midEvents ctx.result_width ctx.result_height
          ++ [Event.unlockSettings]) ∧
    Event.lockSettings ∉ midEvents ctx.result_width ctx.result_height ∧
    Event.unlockSettings ∉ midEvents ctx.result_width ctx.result_height ∧
    Event.trySendFrame ∈ midEvents ctx.result_width ctx.result_height ∧
    (∀ i j, i < ctx.result_height → j < ctx.result_width →
      Event.computePixel i j ∈ midEvents ctx.result_width ctx.result_height) ∧
    (∀ k i j, (run_iteration_trace ctx)[k]? = some (Event.computePixel i j) →
      settingsLockHeldAt (run_iteration_trace ctx) k = true) ∧
    (∀ k, (run_iteration_trace ctx)[k]? = some Event.trySendFrame →
      settingsLockHeldAt (run_iteration_trace ctx) k = true) := by
  set w := ctx.result_width
  set h := ctx.result_height
  have hdec := run_iteration_trace_decomp ctx
  have hnl : Event.lockSettings ∉ midEvents w h := by
    intro hmem
    rcases mem_midEvents.mp hmem with h1 | h1 | h1 | h1 | h1 | h1 <;>
      first
        | cases h1
        | exact absurd (mem_computeEvents.mp h1) (by rintro ⟨i, j, _, _, he⟩; cases he)
  have hnu := unlockSettings_not_mem_midEvents w h
  refine ⟨hdec, hnl, hnu, ?_, ?_, ?_, ?_⟩
  · exact mem_midEvents.mpr (Or.inr (Or.inr (Or.inr (Or.inr (Or.inr rfl)))))
  · intro i j hi hj
    exact mem_midEvents.mpr (Or.inr (Or.inr (Or.inr (Or.inr (Or.inl
      (mem_computeEvents.mpr ⟨i, j, hi, hj, rfl⟩))))))
  · intro k i j hk
    rw [hdec] at hk ⊢
    have hb := middle_bounds _ k _ hk (by intro he; cases he)
      (by intro he; cases he) (by intro he; cases he)
    exact heldAt_of_middle _ k hnu hb.1 hb.2
  · intro k hk
    rw [hdec] at hk ⊢
    have hb := middle_bounds _ k _ hk (by intro he; cases he)
      (by intro he; cases he) (by intro he; cases he)
    exact heldAt_of_middle _ k hnu hb.1 hb.2

/-- Witness for C3's amended theorem on the concrete 1x1 context: the
pixel event at index 6 and the publish event at index 7 both run with the
settings lock held. -/
theorem C3_amended_lock_held_through_iteration_witness :
    Event.computePixel 0 0 ∈ midEvents ctx1.result_width ctx1.result_height ∧
    settingsLockHeldAt (run_iteration_trace ctx1) 6 = true ∧
    settingsLockHeldAt (run_iteration_trace ctx1) 7 = true := by
  have h := C3_amended_lock_held_through_iteration ctx1
  refine ⟨h.2.2.2.2.1 0 0 (by decide) (by decide), ?_, ?_⟩
  · exact h.2.2.2.2.2.1 6 0 0 (by decide)
  · exact h.2.2.2.2.2.2 7 (by decide)

/-- C4 counterexample: on a concrete 2x2 context with red settings, the
context's guarded pixel buffer after an iteration still equals its
construction-time contents, which differ from the pixel values the
iteration wrote (and handed to the channel) — so the writes did not go
into the context's buffer. -/
theorem C4_counterexample :
    (iterationBody ctx2).ctx.image_data = ctx2.image_data ∧
    (iterationBody ctx2).frame ≠ ctx2.image_data := by
  exact ⟨rfl, by decide⟩

/-- C4 amended: each iteration clones the context's guarded buffer, writes
the pixel values into the clone, and hands the clone to the channel; the
context's own buffer is never written, so it keeps its construction-time
contents across any number of loop iterations (every iteration starts from
the same stored buffer, not from the previous iteration's writes). -/
theorem C4_amended_buffer_cloned_not_updated (ctx : PathTracerRenderContext)
    (n : Nat) :
    (iterationBody ctx).ctx.image_data = ctx.image_data ∧
    (threadLoop n ctx).1.image_data = ctx.image_data ∧
    (iterationBody ctx).frame =
      renderLoop (bgColor ctx.settings.value) ctx.result_width
        ctx.result_height ctx.image_data := by
  refine ⟨rfl, ?_, rfl⟩
  induction n generalizing ctx with
  | zero => rfl
  | succ k ih =>
    show (threadLoop (k + 1) ctx).1.image_data = ctx.image_data
    unfold threadLoop
    cases hr : run_iteration ctx with
    | error p => rfl
    | ok r =>
      unfold run_iteration at hr
      split at hr
      · cases hr
      · cases Except.ok.inj hr
        rw [ih]
        rfl

/-- C5: for a context built by `PathTracerRenderContext::new(width,
height, ...)`, every (non-panicking) iteration hands the channel a pixel
vector of exactly `width * height` 4-component colors. -/
theorem C5_frame_length_invariant (w h : Nat) (tx : FrameChannel)
    (rx : CameraChannel) (ms : MutexSettings) (hp : ms.poisoned = false) :
    run_iteration (PathTracerRenderContext.new w h tx rx ms) =
      Except.ok (iterationBody (PathTracerRenderContext.new w h tx rx ms)) ∧
    (iterationBody (PathTracerRenderContext.new w h tx rx ms)).frame.length =
      w * h := by
  refine ⟨run_iteration_ok _ hp, ?_⟩
  rw [iterationBody_frame]
  show (renderLoop _ w h (List.replicate (w * h) Color.default)).length = w * h
  rw [renderLoop_length, List.length_replicate]

/-- Witness for C5 at 2x2: the published frame has 4 pixels. -/
theorem C5_frame_length_invariant_witness :
    mutexRed.poisoned = false ∧ (iterationBody ctx2).frame.length = 2 * 2 :=
  ⟨rfl, (C5_frame_length_invariant 2 2 emptyChan camId mutexRed rfl).2⟩

/-- C6: the camera channel is constructed with a required initial value
(`Mat4::identity()` in `main`) and `latest()` is idempotent — it leaves
the channel state unchanged, so any number of consecutive calls with no
intervening `update()` return the same value; before any update, every
call on `main`'s channel returns the identity transform. -/
theorem C6_latest_idempotent_initial_identity (ch : CameraChannel) (n : Nat) :
    (ch.latest).2 = ch ∧
    latestCalls n ch = List.replicate n (ch.latest).1 ∧
    latestCalls n mainCameraChannel = List.replicate n Mat4.identity ∧
    (∀ m, ((ch.update m).latest).1 = m) := by
  exact ⟨rfl, latestCalls_replicate n ch, latestCalls_replicate n mainCameraChannel,
    fun m => rfl⟩

/-- C7: on each display tick the consumer polls once; it uploads exactly
when the poll returned a frame, and on an empty poll the shown content and
the channel are left untouched. -/
theorem C7_upload_iff_frame_polled (ch : FrameChannel)
    (shown : Option (List Color)) :
    (RenderViewCallback.prepare ch shown).uploaded = ((ch.tryRecv).1).isSome ∧
    ((ch.tryRecv).1 = none →
      (RenderViewCallback.prepare ch shown).shown = shown ∧
      (RenderViewCallback.prepare ch shown).uploaded = false ∧
      (RenderViewCallback.prepare ch shown).receiver = ch) ∧
    (∀ f, (ch.tryRecv).1 = some f →
      (RenderViewCallback.prepare ch shown).shown = some f ∧
      (RenderViewCallback.prepare ch shown).uploaded = true) := by
  rcases ch with ⟨q, cap, conn⟩
  cases q <;>
    simp [RenderViewCallback.prepare, FrameChannel.tryRecv]

/-- Witness for C7: an empty channel leads to no upload and unchanged
content; a channel holding one frame leads to an upload of that frame. -/
theorem C7_upload_iff_frame_polled_witness :
    (RenderViewCallback.prepare emptyChan (some [Color.default])).shown =
      some [Color.default] ∧
    (RenderViewCallback.prepare emptyChan (some [Color.default])).uploaded = false ∧
    (RenderViewCallback.prepare oneFrameChan none).shown = some [Color.default] ∧
    (RenderViewCallback.prepare oneFrameChan none).uploaded = true := by
  have h1 := C7_upload_iff_frame_polled emptyChan (some [Color.default])
  have h2 := C7_upload_iff_frame_polled oneFrameChan none
  have e1 := h1.2.1 rfl
  have e2 := h2.2.2 [Color.default] rfl
  exact ⟨e1.1, e1.2.1, e2.1, e2.2⟩

/-- C8: when the settings mutex is poisoned, `lock().unwrap()` panics:
`run_iteration` aborts before computing or publishing anything, and the
render thread's loop performs no further iterations — for any remaining
fuel the loop state is exactly the context at the time of the panic (in
particular the channel receives nothing further, ever). -/
theorem C8_poisoned_lock_is_fatal (ctx : PathTracerRenderContext)
    (hp : ctx.settings.poisoned = true) :
    run_iteration ctx = Except.error Panic.poisonedLock ∧
    (∀ n, threadLoop (n + 1) ctx = (ctx, some Panic.poisonedLock)) := by
  have he : run_iteration ctx = Except.error Panic.poisonedLock := by
    unfold run_iteration
    rw [hp]
    rfl
  refine ⟨he, fun n => ?_⟩
  show threadLoop (n + 1) ctx = _
  unfold threadLoop
  rw [he]

/-- Witness for C8 on a concrete poisoned 2x2 context. -/
theorem C8_poisoned_lock_is_fatal_witness :
    run_iteration ctx2p = Except.error Panic.poisonedLock ∧
    threadLoop 3 ctx2p = (ctx2p, some Panic.poisonedLock) := by
  have h := C8_poisoned_lock_is_fatal ctx2p rfl
  exact ⟨h.1, h.2 2⟩

/-- C9: snapshot isolation — the published pixels are a function only of
the settings value read under the lock at the start of the iteration and
of the context's dimensions: any two (well-formed) contexts agreeing on
the settings snapshot and the dimensions produce identical frames,
whatever their cameras, views, channels or buffer contents are. -/
theorem C9_snapshot_isolation (ctx₁ ctx₂ : PathTracerRenderContext)
    (hp₁ : ctx₁.settings.poisoned = false)
    (hw : ctx₁.result_width = ctx₂.result_width)
    (hh : ctx₁.result_height = ctx₂.result_height)
    (hs : ctx₁.settings.value = ctx₂.settings.value)
    (hb₁ : ctx₁.image_data.length = ctx₁.result_width * ctx₁.result_height)
    (hb₂ : ctx₂.image_data.length = ctx₂.result_width * ctx₂.result_height) :
    run_iteration ctx₁ = Except.ok (iterationBody ctx₁) ∧
    (iterationBody ctx₁).frame = (iterationBody ctx₂).frame := by
  refine ⟨run_iteration_ok ctx₁ hp₁, ?_⟩
  rw [iterationBody_frame, iterationBody_frame, hs, hw, hh]
  apply renderLoop_congr
  · rw [← hw, ← hh]
    exact hb₁
  · exact hb₂

/-- Witness for C9: the red-snapshot context and a context that (besides
holding the same red snapshot) differs in camera, view, channel state and
buffer contents — the spec's scenario where settings later become green is
covered because the second context's every other component is arbitrary —
publish bit-identical frames. -/
theorem C9_snapshot_isolation_witness :
    (iterationBody ctx2).frame = (iterationBody ctx2b).frame :=
  (C9_snapshot_isolation ctx2 ctx2b rfl rfl rfl rfl (by decide) (by decide)).2

/-- C10: camera noninterference — the value `latest()` returns has no
effect on the produced frame (two iterations differing only in the camera
value produce bit-identical pixels), the context's stored view transform
is never updated from the camera channel, and pixel `(i, j)` is the
settings background color with alpha forced to 1.0 on the diagonal and
opaque white elsewhere. -/
theorem C10_camera_noninterference (ctx : PathTracerRenderContext)
    (cam₁ cam₂ : Mat4) (hp : ctx.settings.poisoned = false)
    (hb : ctx.image_data.length = ctx.result_width * ctx.result_height) :
    (iterationBody { ctx with input_rx := ⟨cam₁⟩ }).frame =
      (iterationBody { ctx with input_rx := ⟨cam₂⟩ }).frame ∧
    (iterationBody { ctx with input_rx := ⟨cam₁⟩ }).ctx.view = ctx.view ∧
    run_iteration { ctx with input_rx := ⟨cam₁⟩ } =
      Except.ok (iterationBody { ctx with input_rx := ⟨cam₁⟩ }) ∧
    (∀ i j, i < ctx.result_height → j < ctx.result_width →
      (iterationBody { ctx with input_rx := ⟨cam₁⟩ }).frame[i * ctx.result_width + j]? =
        some (if i = j then bgColor ctx.settings.value else Color.new 1 1 1 1)) := by
  refine ⟨rfl, rfl, run_iteration_ok _ hp, fun i j hi hj => ?_⟩
  rw [iterationBody_frame]
  exact renderLoop_getElem? _ _ _ _ i j hi hj hb

/-- Witness for C10 at a concrete 2x2 context: identity camera versus a
translation camera give the same frame, and the corner pixel (0,0) is the
red background with alpha 1. -/
theorem C10_camera_noninterference_witness :
    (iterationBody { ctx2 with input_rx := ⟨Mat4.identity⟩ }).frame =
      (iterationBody { ctx2 with input_rx := ⟨Mat4.new_translation 1 2 3⟩ }).frame ∧
    (iterationBody { ctx2 with input_rx := ⟨Mat4.identity⟩ }).frame[0]? =
      some (Color.new 1 0 0 1) := by
  have h := C10_camera_noninterference ctx2 Mat4.identity
    (Mat4.new_translation 1 2 3) rfl rfl
  refine ⟨h.1, ?_⟩
  have h4 := h.2.2.2 0 0 (by decide) (by decide)
  simpa [bgColor, settingsRed, Color.new] using h4

end Strela
